import Mathlib

/-!
# Verification of the LinkedIn job agent's discovery and application core

Shallow embedding of the core of `linkedin-job-agent`:

* the scorer boundary and the match decision gate
  (`src/linkedin/human_flow.py`, `src/resume/ai_parser.py`);
* the AI page-extraction record mapping (`src/linkedin/scraper.py`,
  `JobScraper._extract_jobs_from_page`, lines 216-253);
* the scroll-until-stable content loader (`JobScraper._scroll_job_list`);
* the Easy-Apply wizard step loop (`HumanJobApplicant._apply_to_job`);
* the per-run application pipeline (`HumanJobApplicant.apply_to_jobs`);
* the rate limiter (`src/utils/rate_limiter.py`) and the persistence
  already-applied check (`src/database/repository.py`).

Modeling conventions: Python floats are modeled as `ℚ` (all scores in the
code are integer percentages divided by `100.0`, so no rounding is lost);
JSON scalars are modeled by `PyScalar`; browser interactions, waits and the
wall clock are abstracted into explicit environment inputs; exceptions are
modeled as explicit outcome constructors where the code catches them.
-/

set_option autoImplicit false

namespace JobAgent

/-- A scalar JSON/Python value as it occurs in AI-extracted job data.
JSON numbers are modeled as integers (the extraction prompts request integer
scores and identifiers). -/
inductive PyScalar where
  | str (s : String)
  | int (n : Int)
  | bool (b : Bool)
  | null
deriving DecidableEq, Repr

/-- Python `str()` applied to a scalar. -/
def pyStr : PyScalar → String
  | .str s => s
  | .int n => toString n
  | .bool true => "True"
  | .bool false => "False"
  | .null => "None"

/-! ## Scorer boundary and match decision gate -/

/-- Outcome of the call to the scorer collaborator (`ai_parser.match_job`) as
observed by `HumanJobApplicant._evaluate_job_match` (human_flow.py lines
298-319): the call may raise, return `None`, return a falsy or non-dict
value, or return a dict of JSON entries. -/
inductive ScorerResult where
  | raises
  | pyNone
  | nonDict
  | dict (entries : List (String × PyScalar))
deriving DecidableEq

/-- Input of `AIResumeParser.match_job` (ai_parser.py lines 108-143) with the
AI call and JSON extraction abstracted: `noResponse` is a falsy `ask_claude`
result; `unparseable raw` covers `extract_json_from_text` raising as well as
a parsed value that is not a dict (the subsequent key assignment raises and
is caught); `parsed es` is a successfully parsed JSON object. -/
inductive AIParse where
  | noResponse
  | unparseable (raw : String)
  | parsed (entries : List (String × PyScalar))

/-- Add `(k, v)` to a JSON object unless the key is already present
(`if k not in parsed: parsed[k] = v`, ai_parser.py lines 137-140). -/
def withDefaultEntry (es : List (String × PyScalar)) (k : String) (v : PyScalar) :
    List (String × PyScalar) :=
  if (es.lookup k).isSome then es else es ++ [(k, v)]

/-- `AIResumeParser.match_job` (ai_parser.py lines 108-143). On a falsy AI
result or a parse failure it returns a default dict with `match_score = 50`
and `recommendation = "maybe"`; otherwise it fills those two keys in when
missing and returns the parsed dict. -/
def matchJob : AIParse → ScorerResult
  | .noResponse =>
      .dict [("error", .str "No AI response"), ("match_score", .int 50),
             ("recommendation", .str "maybe")]
  | .unparseable raw =>
      .dict [("error", .str "Failed to parse AI response"), ("match_score", .int 50),
             ("recommendation", .str "maybe"), ("raw", .str raw)]
  | .parsed es =>
      .dict (withDefaultEntry (withDefaultEntry es "match_score" (.int 50))
        "recommendation" (.str "maybe"))

/-- `HumanJobApplicant._evaluate_job_match` (human_flow.py lines 298-319): any
exception yields `0.0`; a falsy or non-dict result yields `0.0`; otherwise
`match_result.get('match_score', 0) / 100.0`, where a non-numeric score makes
the division raise `TypeError`, which the surrounding handler turns into
`0.0`. A Python `bool` score divides as `1` or `0`. -/
def evaluateJobMatch : ScorerResult → ℚ
  | .raises => 0
  | .pyNone => 0
  | .nonDict => 0
  | .dict es =>
      if es.isEmpty then 0
      else
        match es.lookup "match_score" with
        | none => 0
        | some (.int n) => (n : ℚ) / 100
        | some (.bool b) => (if b then (1 : ℚ) else 0) / 100
        | some _ => 0

/-- The gate's verdict. -/
inductive Decision where
  | proceed
  | skip
deriving DecidableEq

/-- The apply/skip gate in `HumanJobApplicant.apply_to_jobs` (human_flow.py
line 69): `if match_score >= min_match_score`. -/
def matchDecision (score threshold : ℚ) : Decision :=
  if threshold ≤ score then .proceed else .skip

/-- The `recommendation` entry of a scorer result (ai_parser.py lines 118 and
139-140 put it in the returned dict; nothing in the application flow reads
it). -/
def recOf : ScorerResult → Option PyScalar
  | .dict es => es.lookup "recommendation"
  | _ => none

/-! ## Claims C1 and C7 -/

/-- C1 counterexample: a scorer result with `match_score = 50` and
`recommendation = "yes"` against threshold `0.7` is skipped by the gate, even
though the claimed policy (`score >= threshold` OR recommendation in
yes/maybe) would proceed: the code's decision ignores the recommendation. -/
theorem matchGate_recommendation_override_fails :
    matchDecision
        (evaluateJobMatch
          (matchJob (.parsed [("match_score", .int 50), ("recommendation", .str "yes")])))
        (7 / 10) = .skip ∧
    recOf (matchJob (.parsed [("match_score", .int 50), ("recommendation", .str "yes")]))
        = some (.str "yes") ∧
    evaluateJobMatch
        (matchJob (.parsed [("match_score", .int 50), ("recommendation", .str "yes")]))
        < 7 / 10 := by
  have hscore :
      evaluateJobMatch
          (matchJob (.parsed [("match_score", .int 50), ("recommendation", .str "yes")]))
        = ((50 : Int) : ℚ) / 100 := rfl
  refine ⟨?_, by decide, ?_⟩
  · unfold matchDecision
    rw [hscore]
    norm_num
  · rw [hscore]
    norm_num

/-- C1 (amended): for every scorer result and threshold, the decision is
`proceed` iff `score >= threshold`; the external recommendation signal is not
consulted by the application flow. -/
theorem matchGate_proceed_iff_score_ge_threshold (r : ScorerResult) (t : ℚ) :
    matchDecision (evaluateJobMatch r) t = .proceed ↔ t ≤ evaluateJobMatch r := by
  unfold matchDecision
  split <;> simp_all

/-- C7: whenever the scorer collaborator fails (raises, returns `None`, or
returns a falsy/non-dict result), the match evaluation surfaces score `0`,
and a `proceed`/`skip` decision is still produced for every threshold; the
evaluation and the gate are total, so a failing scorer never halts the job
loop. -/
theorem scorerFailure_neutral (r : ScorerResult) (t : ℚ) :
    ((r = .raises ∨ r = .pyNone ∨ r = .nonDict) → evaluateJobMatch r = 0) ∧
    (matchDecision (evaluateJobMatch r) t = .proceed ∨
      matchDecision (evaluateJobMatch r) t = .skip) := by
  constructor
  · rintro (rfl | rfl | rfl) <;> rfl
  · unfold matchDecision
    split
    · exact Or.inl rfl
    · exact Or.inr rfl

/-- C7 witness: the raising scorer at threshold `0.7`. -/
theorem scorerFailure_neutral_witness :
    evaluateJobMatch .raises = 0 ∧
    (matchDecision (evaluateJobMatch .raises) (7 / 10) = .proceed ∨
      matchDecision (evaluateJobMatch .raises) (7 / 10) = .skip) :=
  ⟨(scorerFailure_neutral .raises (7 / 10)).1 (Or.inl rfl),
   (scorerFailure_neutral .raises (7 / 10)).2⟩

/-! ## Record extraction (`JobScraper._extract_jobs_from_page`, scraper.py
lines 216-253) -/

/-- Bool substring scan over char lists, auxiliary to `strContains`. -/
def strContainsFrom (needle : List Char) : List Char → Bool
  | [] => needle.isEmpty
  | hay@(_ :: rest) => needle.isPrefixOf hay || strContainsFrom needle rest

/-- Python `str.lower`, over the character data. -/
def pyLower (s : String) : String := String.mk (s.data.map Char.toLower)

/-- Python `needle in hay` on strings (substring membership). -/
def strContains (hay needle : String) : Bool := strContainsFrom needle.data hay.data

/-- One candidate job object from the AI-extracted JSON array
(`job_data_list`, scraper.py line 212). Fields carry the JSON types the
extraction prompt requests; `job_id` may carry any scalar, since the code
stringifies it. The `posted_date` parse (lines 228-234, failures ignored)
does not interact with any claim and is outside the model. -/
structure JobData where
  job_id : Option PyScalar := none
  title : Option String := none
  company : Option String := none
  location : Option String := none
  work_arrangement : Option String := none
  job_url : Option String := none
  easy_apply : Option Bool := none
deriving DecidableEq

/-- The fields of `JobListing` (database/models.py lines 91-104) set by the
extraction loop. -/
structure JobListing where
  job_id : String
  job_title : String
  company_name : String
  location : String
  work_arrangement : String
  job_url : String
  easy_apply : Bool
deriving DecidableEq, Repr

/-- `str(job_data.get('job_id', ''))` (scraper.py line 237). -/
def jobIdStr (jd : JobData) : String :=
  pyStr (jd.job_id.getD (.str ""))

/-- The per-candidate conversion (scraper.py lines 219-245): derive the work
arrangement from the location text when the given one is falsy or
`"onsite"`, stringify the id, and default the remaining fields. -/
def buildJob (jd : JobData) : JobListing :=
  let location := jd.location.getD ""
  let wa0 := jd.work_arrangement.getD "onsite"
  let wa :=
    if wa0 = "" ∨ wa0 = "onsite" then
      if strContains (pyLower location) "remote" then "remote"
      else if strContains (pyLower location) "hybrid" then "hybrid"
      else wa0
    else wa0
  { job_id := jobIdStr jd,
    job_title := jd.title.getD "Unknown",
    company_name := jd.company.getD "Unknown",
    location := location,
    work_arrangement := wa,
    job_url := jd.job_url.getD "",
    easy_apply := jd.easy_apply.getD false }

/-- The conversion loop over the extracted JSON array (scraper.py lines
217-253): convert each candidate in page order and keep it only when the
stringified id is non-empty (`if job.job_id:`, line 247). There is no
deduplication step. -/
def convertJobs : List JobData → List JobListing
  | [] => []
  | jd :: rest =>
      let job := buildJob jd
      if job.job_id = "" then convertJobs rest
      else job :: convertJobs rest

/-! ## Claims C3 and C10 -/

/-- A candidate with id `"555"` together with ordinary fields, used to
exhibit the missing deduplication. -/
def dupJob : JobData :=
  { job_id := some (.str "555"), title := some "Title", company := some "Co",
    location := some "United States (Remote)", job_url := some "url",
    easy_apply := some true }

/-- C3 counterexample: a page whose extracted JSON array repeats the same
candidate (one distinct identifier `"555"` plus duplicate noise) yields two
output records both with id `"555"`: the extractor's output does not collapse
duplicate ids. -/
theorem extraction_dedup_fails :
    ((convertJobs [dupJob, dupJob]).map (fun j => j.job_id)) = ["555", "555"] ∧
    ((convertJobs [dupJob, dupJob]).map (fun j => j.job_id)).count "555" = 2 := by
  constructor <;> decide

/-- C3 (amended): the extractor's output ids are exactly the stringified ids
of the input candidates whose id is non-empty, in first-occurrence (page
visual) order, with duplicates preserved: the extractor performs no
deduplication. -/
theorem extraction_ids_in_page_order_with_duplicates (l : List JobData) :
    (convertJobs l).map (fun j => j.job_id)
      = (l.map jobIdStr).filter (fun s => s != "") := by
  induction l with
  | nil => rfl
  | cons jd rest ih =>
      show (if (buildJob jd).job_id = "" then convertJobs rest
            else buildJob jd :: convertJobs rest).map (fun j => j.job_id)
          = (jobIdStr jd :: rest.map jobIdStr).filter (fun s => s != "")
      have hid : (buildJob jd).job_id = jobIdStr jd := rfl
      simp only [hid]
      by_cases h : jobIdStr jd = ""
      · rw [if_pos h, List.filter_cons]
        have hb : (jobIdStr jd != "") = false := by simp [h]
        rw [hb, if_neg (by simp)]
        exact ih
      · rw [if_neg h, List.filter_cons]
        have hb : (jobIdStr jd != "") = true := by simpa using h
        rw [hb, if_pos rfl, List.map_cons, hid, ih]

/-- C10: every record produced by the extraction loop has a non-empty id,
and candidates whose stringified id is missing or empty are silently
dropped: filtering them away from the input leaves the output unchanged. -/
theorem extraction_requires_nonempty_id (l : List JobData) :
    ((convertJobs l).all (fun j => j.job_id != "")) = true ∧
    convertJobs (l.filter (fun jd => jobIdStr jd != "")) = convertJobs l := by
  induction l with
  | nil => exact ⟨rfl, rfl⟩
  | cons jd rest ih =>
      have hid : (buildJob jd).job_id = jobIdStr jd := rfl
      constructor
      · show ((if (buildJob jd).job_id = "" then convertJobs rest
              else buildJob jd :: convertJobs rest).all (fun j => j.job_id != "")) = true
        simp only [hid]
        by_cases h : jobIdStr jd = ""
        · rw [if_pos h]; exact ih.1
        · rw [if_neg h]
          simp only [List.all_cons, ih.1, Bool.and_true, hid]
          simpa using h
      · rw [List.filter_cons]
        by_cases h : jobIdStr jd = ""
        · have hb : (jobIdStr jd != "") = false := by simp [h]
          rw [hb, if_neg (by simp)]
          have hskip : convertJobs (jd :: rest) = convertJobs rest := by
            show (if (buildJob jd).job_id = "" then convertJobs rest
                  else buildJob jd :: convertJobs rest) = convertJobs rest
            simp only [hid]
            rw [if_pos h]
          rw [hskip]; exact ih.2
        · have hb : (jobIdStr jd != "") = true := by simpa using h
          rw [hb, if_pos rfl]
          show (if (buildJob jd).job_id = ""
                then convertJobs (rest.filter fun jd => jobIdStr jd != "")
                else buildJob jd :: convertJobs (rest.filter fun jd => jobIdStr jd != ""))
              = convertJobs (jd :: rest)
          simp only [hid]
          rw [if_neg h, ih.2]
          show _ = (if (buildJob jd).job_id = "" then convertJobs rest
                    else buildJob jd :: convertJobs rest)
          simp only [hid]
          rw [if_neg h]

/-! ## Content loader (`JobScraper._scroll_job_list`, scraper.py lines
274-353) -/

/-- Reason the scroll loop stopped before exhausting its 15 attempts
(scraper.py lines 327-346): `stableLarge` is 3 consecutive no-growth rounds
with at least 20 records, `stableCap` is 5 consecutive no-growth rounds,
`pageFull` is a count of at least 25. -/
inductive ScrollStop where
  | stableLarge
  | stableCap
  | pageFull
deriving DecidableEq, Repr

/-- Result of one loop iteration: stop with a reason, or continue with the
updated `last_count` and `no_new_jobs_count`. -/
inductive RoundStep where
  | stop (r : ScrollStop)
  | cont (last nn : Nat)
deriving DecidableEq, Repr

/-- One iteration body of the scroll loop after recounting (scraper.py lines
327-346): on no growth, bump the stability counter and stop on the 3-with-20
rule or the 5 rule; on growth, reset the counter and track the new count; in
either case stop when the count reached 25. -/
def scrollRound (last nn cur : Nat) : RoundStep :=
  if cur = last then
    if 3 ≤ nn + 1 ∧ 20 ≤ cur then .stop .stableLarge
    else if 5 ≤ nn + 1 then .stop .stableCap
    else if 25 ≤ cur then .stop .pageFull
    else .cont last (nn + 1)
  else
    if 25 ≤ cur then .stop .pageFull
    else .cont cur 0

/-- The scroll loop (`for i in range(15)`, scraper.py line 306), structural
on the remaining attempts. `obs 0` is the initial count (line 298) and
`obs (i + 1)` is the count observed after the `(i + 1)`-st scroll (line
323); argument `i` is the number of scrolls already performed. Returns the
number of scrolls performed and the stop reason (`none` when the 15-attempt
cap was exhausted). -/
def scrollAux (obs : Nat → Nat) : Nat → Nat → Nat → Nat → Nat × Option ScrollStop
  | 0, i, _, _ => (i, none)
  | fuel + 1, i, last, nn =>
      match scrollRound last nn (obs (i + 1)) with
      | .stop r => (i + 1, some r)
      | .cont l n => scrollAux obs fuel (i + 1) l n

/-- `JobScraper._scroll_job_list`: run the loop with 15 attempts starting
from the initial count and a zero stability counter (scraper.py lines
302-306). -/
def scrollJobList (obs : Nat → Nat) : Nat × Option ScrollStop :=
  scrollAux obs 15 0 (obs 0) 0

/-- The `(last_count, no_new_jobs_count)` update of a continuing round
(scraper.py lines 328-341, ignoring the stop checks). -/
def contState (s : Nat × Nat) (cur : Nat) : Nat × Nat :=
  if cur = s.1 then (s.1, s.2 + 1) else (cur, 0)

/-- The `(last_count, no_new_jobs_count)` state entering round `i`. -/
def traj (obs : Nat → Nat) : Nat → Nat × Nat
  | 0 => (obs 0, 0)
  | i + 1 => contState (traj obs i) (obs (i + 1))

/-- The stop condition the loop fires in round `i`, if any. -/
def stopAt (obs : Nat → Nat) (i : Nat) : Option ScrollStop :=
  match scrollRound (traj obs i).1 (traj obs i).2 (obs (i + 1)) with
  | .stop r => some r
  | .cont _ _ => none

theorem scrollRound_cont {last nn cur l n : Nat}
    (h : scrollRound last nn cur = .cont l n) :
    contState (last, nn) cur = (l, n) := by
  unfold scrollRound at h
  unfold contState
  split_ifs at h ⊢ <;> simp_all

theorem scrollRound_stop_of_stable {last nn cur : Nat} (hc : cur = last)
    (hnn : 4 ≤ nn) : ∃ r, scrollRound last nn cur = .stop r := by
  unfold scrollRound
  rw [if_pos hc]
  by_cases h20 : 20 ≤ cur
  · exact ⟨.stableLarge, by rw [if_pos ⟨by omega, h20⟩]⟩
  · exact ⟨.stableCap, by rw [if_neg (by tauto), if_pos (by omega)]⟩

theorem scrollAux_spec (obs : Nat → Nat) :
    ∀ fuel i k ro, i + fuel = 15 →
      scrollAux obs fuel i (traj obs i).1 (traj obs i).2 = (k, ro) →
      k ≤ 15 ∧
      (∀ j, i ≤ j → j + 1 < k → stopAt obs j = none) ∧
      (ro = none → k = 15 ∧ ∀ j, i ≤ j → j < 15 → stopAt obs j = none) ∧
      (∀ r, ro = some r → i + 1 ≤ k ∧ stopAt obs (k - 1) = some r) := by
  intro fuel
  induction fuel with
  | zero =>
      intro i k ro hi heq
      simp only [scrollAux] at heq
      obtain ⟨rfl, rfl⟩ : i = k ∧ (none : Option ScrollStop) = ro := by
        exact ⟨congrArg Prod.fst heq, congrArg Prod.snd heq⟩
      refine ⟨by omega, by omega, fun _ => ⟨by omega, by omega⟩, fun r hr => by simp at hr⟩
  | succ fuel ih =>
      intro i k ro hi heq
      simp only [scrollAux] at heq
      cases hsr : scrollRound (traj obs i).1 (traj obs i).2 (obs (i + 1)) with
      | stop r =>
          rw [hsr] at heq
          obtain ⟨rfl, rfl⟩ : i + 1 = k ∧ (some r : Option ScrollStop) = ro :=
            ⟨congrArg Prod.fst heq, congrArg Prod.snd heq⟩
          have hstop : stopAt obs i = some r := by unfold stopAt; rw [hsr]
          refine ⟨by omega, by omega, by simp, fun r' hr' => ?_⟩
          obtain rfl : r = r' := by simpa using hr'
          simpa using hstop
      | cont l n =>
          rw [hsr] at heq
          have hc : stopAt obs i = none := by unfold stopAt; rw [hsr]
          have htraj : traj obs (i + 1) = (l, n) := by
            show contState (traj obs i) (obs (i + 1)) = (l, n)
            rw [← scrollRound_cont hsr]
          have heq' : scrollAux obs fuel (i + 1) (traj obs (i + 1)).1
              (traj obs (i + 1)).2 = (k, ro) := by
            rw [htraj]; exact heq
          obtain ⟨ha, hb, hn, hs⟩ := ih (i + 1) k ro (by omega) heq'
          refine ⟨ha, ?_, ?_, ?_⟩
          · intro j hij hjk
            rcases Nat.eq_or_lt_of_le hij with rfl | hij'
            · exact hc
            · exact hb j hij' hjk
          · intro hro
            obtain ⟨hk, hall⟩ := hn hro
            refine ⟨hk, fun j hij hj15 => ?_⟩
            rcases Nat.eq_or_lt_of_le hij with rfl | hij'
            · exact hc
            · exact hall j hij' hj15
          · intro r hr
            obtain ⟨hk, hst⟩ := hs r hr
            exact ⟨by omega, hst⟩

/-! ## Claims C2 and C8 -/

/-- C2: for every sequence of per-round counts, the content-loading loop
performs at most 15 scroll attempts, and it stops at the first round whose
stop condition fires: no earlier round fires one; a reported reason
(`stableLarge` = 3 consecutive no-growth rounds with count at least 20,
`stableCap` = 5 consecutive no-growth rounds, `pageFull` = count at least
25) is exactly the condition of the stopping round; and the cap-exhausted
outcome occurs iff no condition fired in all 15 rounds. -/
theorem scroll_stops_at_first_condition (obs : Nat → Nat) :
    (scrollJobList obs).1 ≤ 15 ∧
    (∀ j, j + 1 < (scrollJobList obs).1 → stopAt obs j = none) ∧
    ((scrollJobList obs).2 = none →
      (scrollJobList obs).1 = 15 ∧ ∀ j, j < 15 → stopAt obs j = none) ∧
    (∀ r, (scrollJobList obs).2 = some r →
      1 ≤ (scrollJobList obs).1 ∧
      stopAt obs ((scrollJobList obs).1 - 1) = some r) := by
  rcases hres : scrollJobList obs with ⟨k, ro⟩
  have h := scrollAux_spec obs 15 0 k ro rfl hres
  simp only [hres]
  exact ⟨h.1, fun j hj => h.2.1 j (Nat.zero_le j) hj,
    fun hn => ⟨(h.2.2.1 hn).1, fun j hj => (h.2.2.1 hn).2 j (Nat.zero_le j) hj⟩,
    fun r hr => ⟨by have := (h.2.2.2 r hr).1; omega, (h.2.2.2 r hr).2⟩⟩

/-- The scenario from the spec: 12 records initially, 23 after the first
scroll, unchanged afterwards. -/
def obsScenario : Nat → Nat := fun i => if i = 0 then 12 else 23

/-- C2 witness: on the 12-then-23-then-stable page the loop stays within its
attempt cap, round 0 fires no stop condition, and the reported reason is the
condition of the stopping round (`stableLarge`, after 3 no-growth rounds at
count 23). -/
theorem scroll_stops_at_first_condition_witness :
    (scrollJobList obsScenario).1 ≤ 15 ∧
    stopAt obsScenario 0 = none ∧
    stopAt obsScenario ((scrollJobList obsScenario).1 - 1)
      = some .stableLarge :=
  ⟨(scroll_stops_at_first_condition obsScenario).1,
   (scroll_stops_at_first_condition obsScenario).2.1 0 (by decide),
   ((scroll_stops_at_first_condition obsScenario).2.2.2 .stableLarge (by decide)).2⟩

theorem traj_fst (obs : Nat → Nat) : ∀ j, (traj obs j).1 = obs j := by
  intro j
  cases j with
  | zero => rfl
  | succ m =>
      show (contState (traj obs m) (obs (m + 1))).1 = obs (m + 1)
      unfold contState
      split_ifs with h
      · omega
      · rfl

/-- C8: if the observed count stops changing from round `k` on, the scroll
loop terminates within `k + 5` scroll attempts (5 is the absolute stability
cap). -/
theorem scroll_stable_terminates (obs : Nat → Nat) (k : Nat)
    (h : ∀ i, k ≤ i → obs i = obs k) :
    (scrollJobList obs).1 ≤ k + 5 := by
  have hnn : ∀ m, m ≤ (traj obs (k + m)).2 := by
    intro m
    induction m with
    | zero => omega
    | succ m ihm =>
        have hstep : traj obs (k + m + 1)
            = contState (traj obs (k + m)) (obs (k + m + 1)) := rfl
        have hcur : obs (k + m + 1) = obs k := h _ (by omega)
        have hlast : (traj obs (k + m)).1 = obs k := by
          rw [traj_fst]; exact h _ (by omega)
        show m + 1 ≤ (traj obs (k + m + 1)).2
        rw [hstep]
        unfold contState
        rw [if_pos (by rw [hcur, hlast])]
        show m + 1 ≤ (traj obs (k + m)).2 + 1
        omega
  have hstop : ∃ r, stopAt obs (k + 4) = some r := by
    have hcur : obs (k + 4 + 1) = obs k := h _ (by omega)
    have hlast : (traj obs (k + 4)).1 = obs k := by
      rw [traj_fst]; exact h _ (by omega)
    obtain ⟨r, hr⟩ := @scrollRound_stop_of_stable (traj obs (k + 4)).1
      (traj obs (k + 4)).2 (obs (k + 4 + 1)) (by rw [hcur, hlast]) (hnn 4)
    exact ⟨r, by unfold stopAt; rw [hr]⟩
  rcases hres : scrollJobList obs with ⟨k', ro⟩
  have hspec := scrollAux_spec obs 15 0 k' ro rfl hres
  show k' ≤ k + 5
  by_contra hlt
  obtain ⟨r, hr⟩ := hstop
  have : stopAt obs (k + 4) = none :=
    hspec.2.1 (k + 4) (Nat.zero_le _) (by omega)
  rw [this] at hr
  cases hr

/-- C8 witness: a page that never grows (constant count 10) is abandoned
after at most `0 + 5` scrolls. -/
theorem scroll_stable_terminates_witness :
    (scrollJobList (fun _ => 10)).1 ≤ 0 + 5 :=
  scroll_stable_terminates (fun _ => 10) 0 (fun _ _ => rfl)

/-! ## Easy-Apply wizard (`HumanJobApplicant._apply_to_job`, human_flow.py
lines 321-375) -/

/-- The affordances present on one wizard step: a submit button (line 341),
a continue/next button (either of the two selectors, lines 348-350), a
review button (line 359). -/
structure Aff where
  submit : Bool
  next : Bool
  review : Bool

/-- A click performed inside the step loop. -/
inductive Action where
  | clickSubmit
  | clickNext
  | clickReview
deriving DecidableEq, Repr

/-- Terminal outcome of `_apply_to_job`: `submitted` is `return True`,
`abandoned` is `return False`. -/
inductive Outcome where
  | submitted
  | abandoned
deriving DecidableEq, Repr

/-- Result of the wizard flow, instrumented with the clicks performed by the
step loop and whether the dismiss affordance was sought after a non-submit
exit (lines 366-369). -/
structure ApplyResult where
  outcome : Outcome
  trace : List Action
  dismissTried : Bool

/-- The step loop (`for step in range(max_steps)` with `max_steps = 5`,
human_flow.py lines 338-364), structural on the remaining steps: the submit
affordance is checked first and clicking it returns success; else a
continue affordance is clicked; else a review affordance is clicked; else
the loop exits, the modal is dismissed (lines 366-369) and the flow reports
failure. Falling out of the loop likewise dismisses and reports failure. -/
def applySteps (aff : Nat → Aff) : Nat → Nat → ApplyResult
  | 0, _ => ⟨.abandoned, [], true⟩
  | fuel + 1, i =>
      if (aff i).submit then ⟨.submitted, [.clickSubmit], false⟩
      else if (aff i).next then
        let r := applySteps aff fuel (i + 1)
        ⟨r.outcome, .clickNext :: r.trace, r.dismissTried⟩
      else if (aff i).review then
        let r := applySteps aff fuel (i + 1)
        ⟨r.outcome, .clickReview :: r.trace, r.dismissTried⟩
      else ⟨.abandoned, [], true⟩

/-- Environment of one `_apply_to_job` run: whether the Easy Apply button is
found (line 325), whether the dialog opens (line 333), and the per-step
affordances. -/
structure ApplyEnv where
  btnFound : Bool
  modalOpened : Bool
  aff : Nat → Aff

/-- `HumanJobApplicant._apply_to_job` (human_flow.py lines 321-375): a
missing button or a missing modal returns failure before the loop (lines
325-335); otherwise the step loop runs with `max_steps = 5`. -/
def runApply (e : ApplyEnv) : ApplyResult :=
  if ¬ e.btnFound then ⟨.abandoned, [], false⟩
  else if ¬ e.modalOpened then ⟨.abandoned, [], false⟩
  else applySteps e.aff 5 0

/-- The affordance priority of one step as the loop body checks it: submit
first, else continue, else review, else nothing recognized. -/
def priorityAction (a : Aff) : Option Action :=
  if a.submit then some .clickSubmit
  else if a.next then some .clickNext
  else if a.review then some .clickReview
  else none

theorem applySteps_trace_length (aff : Nat → Aff) :
    ∀ fuel i, (applySteps aff fuel i).trace.length ≤ fuel := by
  intro fuel
  induction fuel with
  | zero => intro i; simp [applySteps]
  | succ fuel ih =>
      intro i
      unfold applySteps
      split_ifs with h1 h2 h3
      · simp
      · simpa using ih (i + 1)
      · simpa using ih (i + 1)
      · simp

theorem applySteps_trace_priority (aff : Nat → Aff) :
    ∀ fuel i, (applySteps aff fuel i).trace
      = (List.range (applySteps aff fuel i).trace.length).filterMap
          (fun k => priorityAction (aff (i + k))) := by
  intro fuel
  induction fuel with
  | zero => intro i; simp [applySteps]
  | succ fuel ih =>
      intro i
      have hshift : (fun k => priorityAction (aff (i + (k + 1))))
          = (fun k => priorityAction (aff (i + 1 + k))) := by
        funext k
        have : i + (k + 1) = i + 1 + k := by omega
        rw [this]
      unfold applySteps
      split_ifs with h1 h2 h3
      · simp [priorityAction, h1, List.range_succ]
      · simp only [List.length_cons, List.range_succ_eq_map,
          List.filterMap_cons, List.filterMap_map]
        have h0 : priorityAction (aff (i + 0)) = some .clickNext := by
          simp [priorityAction, h1, h2]
        rw [h0]
        refine congrArg _ ?_
        calc (applySteps aff fuel (i + 1)).trace
            = (List.range (applySteps aff fuel (i + 1)).trace.length).filterMap
                (fun k => priorityAction (aff (i + 1 + k))) := ih (i + 1)
          _ = List.filterMap ((fun k => priorityAction (aff (i + k))) ∘ Nat.succ)
                (List.range (applySteps aff fuel (i + 1)).trace.length) := by
              rw [show ((fun k => priorityAction (aff (i + k))) ∘ Nat.succ)
                  = (fun k => priorityAction (aff (i + 1 + k))) from hshift]
      · simp only [List.length_cons, List.range_succ_eq_map,
          List.filterMap_cons, List.filterMap_map]
        have h0 : priorityAction (aff (i + 0)) = some .clickReview := by
          simp [priorityAction, h1, h2, h3]
        rw [h0]
        refine congrArg _ ?_
        calc (applySteps aff fuel (i + 1)).trace
            = (List.range (applySteps aff fuel (i + 1)).trace.length).filterMap
                (fun k => priorityAction (aff (i + 1 + k))) := ih (i + 1)
          _ = List.filterMap ((fun k => priorityAction (aff (i + k))) ∘ Nat.succ)
                (List.range (applySteps aff fuel (i + 1)).trace.length) := by
              rw [show ((fun k => priorityAction (aff (i + k))) ∘ Nat.succ)
                  = (fun k => priorityAction (aff (i + 1 + k))) from hshift]
      · simp [applySteps]

theorem getLast?_cons_of_some {α : Type} (a b : α) (l : List α)
    (h : l.getLast? = some b) : (a :: l).getLast? = some b := by
  cases l with
  | nil => simp at h
  | cons y ys => rw [List.getLast?_cons_cons]; exact h

theorem applySteps_submitted_last (aff : Nat → Aff) :
    ∀ fuel i, (applySteps aff fuel i).outcome = .submitted →
      (applySteps aff fuel i).trace.getLast? = some .clickSubmit := by
  intro fuel
  induction fuel with
  | zero => intro i h; cases h
  | succ fuel ih =>
      intro i
      unfold applySteps
      split_ifs with h1 h2 h3
      · intro _; rfl
      · intro ho
        exact getLast?_cons_of_some _ _ _ (ih (i + 1) ho)
      · intro ho
        exact getLast?_cons_of_some _ _ _ (ih (i + 1) ho)
      · intro hc; cases hc

theorem applySteps_abandoned_last (aff : Nat → Aff) :
    ∀ fuel i, (applySteps aff fuel i).outcome = .abandoned →
      (applySteps aff fuel i).trace.getLast? ≠ some .clickSubmit := by
  intro fuel
  induction fuel with
  | zero => intro i _; simp [applySteps]
  | succ fuel ih =>
      intro i
      unfold applySteps
      split_ifs with h1 h2 h3
      · intro hc; cases hc
      · intro ho
        show ¬(Action.clickNext :: (applySteps aff fuel (i + 1)).trace).getLast?
            = some .clickSubmit
        cases hr : (applySteps aff fuel (i + 1)).trace with
        | nil => simp
        | cons y ys =>
            rw [List.getLast?_cons_cons]
            have := ih (i + 1) ho
            rwa [hr] at this
      · intro ho
        show ¬(Action.clickReview :: (applySteps aff fuel (i + 1)).trace).getLast?
            = some .clickSubmit
        cases hr : (applySteps aff fuel (i + 1)).trace with
        | nil => simp
        | cons y ys =>
            rw [List.getLast?_cons_cons]
            have := ih (i + 1) ho
            rwa [hr] at this
      · intro _; simp

theorem applySteps_submitted_iff (aff : Nat → Aff) :
    ∀ fuel i, (applySteps aff fuel i).outcome = .submitted ↔
      (applySteps aff fuel i).trace.getLast? = some .clickSubmit := by
  intro fuel i
  constructor
  · exact applySteps_submitted_last aff fuel i
  · intro hl
    cases ho : (applySteps aff fuel i).outcome
    · rfl
    · exact absurd hl (applySteps_abandoned_last aff fuel i ho)

theorem applySteps_abandoned_dismiss (aff : Nat → Aff) :
    ∀ fuel i, (applySteps aff fuel i).outcome = .abandoned →
      (applySteps aff fuel i).dismissTried = true := by
  intro fuel
  induction fuel with
  | zero => intro i _; rfl
  | succ fuel ih =>
      intro i
      unfold applySteps
      split_ifs with h1 h2 h3
      · intro hc; cases hc
      · exact ih (i + 1)
      · exact ih (i + 1)
      · intro _; rfl

theorem applySteps_exit_unrecognized (aff : Nat → Aff) :
    ∀ fuel i, (applySteps aff fuel i).outcome = .abandoned →
      (applySteps aff fuel i).trace.length < fuel →
      priorityAction (aff (i + (applySteps aff fuel i).trace.length)) = none := by
  intro fuel
  induction fuel with
  | zero => intro i _ hlen; omega
  | succ fuel ih =>
      intro i
      unfold applySteps
      split_ifs with h1 h2 h3
      · intro hc; cases hc
      · intro ho hlen
        simp only [List.length_cons] at hlen ⊢
        have : i + ((applySteps aff fuel (i + 1)).trace.length + 1)
            = i + 1 + (applySteps aff fuel (i + 1)).trace.length := by omega
        rw [this]
        exact ih (i + 1) ho (by omega)
      · intro ho hlen
        simp only [List.length_cons] at hlen ⊢
        have : i + ((applySteps aff fuel (i + 1)).trace.length + 1)
            = i + 1 + (applySteps aff fuel (i + 1)).trace.length := by omega
        rw [this]
        exact ih (i + 1) ho (by omega)
      · intro _ _
        simp [priorityAction, h1, h2, h3]

/-! ## Claims C4 and C5 -/

/-- C4: for every adversarial sequence of step affordances (and of the
button/modal preconditions), `_apply_to_job` performs at most 5 step click
actions and reaches a terminal outcome (`submitted` or `abandoned`); it
never loops unboundedly on unrecognized steps. -/
theorem applyFlow_bounded (e : ApplyEnv) :
    (runApply e).trace.length ≤ 5 ∧
    ((runApply e).outcome = .submitted ∨ (runApply e).outcome = .abandoned) := by
  constructor
  · unfold runApply
    split_ifs <;>
      first
        | exact applySteps_trace_length e.aff 5 0
        | exact Nat.zero_le 5
  · cases ho : (runApply e).outcome
    · exact Or.inl rfl
    · exact Or.inr rfl

/-- C5: at every iteration of the wizard step loop the affordances are
checked in priority order (submit, else continue, else review): the click
trace is pointwise the priority choice of the step's affordances; the
outcome is `submitted` exactly when the last click is the submit click (so
clicking submit ends the flow); on every non-submit exit a dismiss action is
attempted and the outcome is `abandoned`; and an exit before the step cap
happens only at a step with no recognized affordance. -/
theorem applyLoop_priority (aff : Nat → Aff) :
    (applySteps aff 5 0).trace
      = (List.range (applySteps aff 5 0).trace.length).filterMap
          (fun k => priorityAction (aff k)) ∧
    ((applySteps aff 5 0).outcome = .submitted ↔
      (applySteps aff 5 0).trace.getLast? = some .clickSubmit) ∧
    ((applySteps aff 5 0).outcome = .abandoned →
      (applySteps aff 5 0).dismissTried = true) ∧
    ((applySteps aff 5 0).outcome = .abandoned →
      (applySteps aff 5 0).trace.length < 5 →
      priorityAction (aff (applySteps aff 5 0).trace.length) = none) := by
  have hfun : (fun k => priorityAction (aff (0 + k))) = (fun k => priorityAction (aff k)) := by
    funext k
    rw [Nat.zero_add]
  refine ⟨?_, applySteps_submitted_iff aff 5 0, applySteps_abandoned_dismiss aff 5 0, ?_⟩
  · rw [← hfun]
    exact applySteps_trace_priority aff 5 0
  · intro ho hlen
    have := applySteps_exit_unrecognized aff 5 0 ho hlen
    rwa [Nat.zero_add] at this

/-- A wizard whose every step exposes no recognized affordance. -/
def affNone : Nat → Aff := fun _ => ⟨false, false, false⟩

/-- C5 witness: with no recognized affordance at step 0, the loop exits at
once, attempts the dismiss action, and the exit step's priority choice is
`none`. -/
theorem applyLoop_priority_witness :
    (applySteps affNone 5 0).dismissTried = true ∧
    priorityAction (affNone (applySteps affNone 5 0).trace.length) = none :=
  ⟨(applyLoop_priority affNone).2.2.1 rfl,
   (applyLoop_priority affNone).2.2.2 rfl (by decide)⟩

/-! ## Per-run pipeline (`HumanJobApplicant.apply_to_jobs`, human_flow.py
lines 21-96) -/

/-- Environment of one job card after `_click_and_read_job` succeeded: the
Easy Apply flag (line 60), the scorer call outcome consumed by
`_evaluate_job_match` (line 65), and the wizard environment driving
`_apply_to_job` (line 71). -/
structure JobDetails where
  easy_apply : Bool
  scorer : ScorerResult
  applyEnv : ApplyEnv

/-- One job card: its `data-job-id` and the detail read outcome (`none` when
`_click_and_read_job` failed, line 48). -/
structure JobEnv where
  job_id : String
  details : Option JobDetails

/-- Counters and instrumentation of one `apply_to_jobs` run: `applied` and
`reviewed` mirror `self.applied_count` and `self.reviewed_count`,
`processed` mirrors the local `jobs_processed`; `sessions` records the job
ids for which `_apply_to_job` was invoked (an application session opened),
`submittedIds` those whose application was submitted. -/
structure RunResult where
  applied : Nat
  reviewed : Nat
  processed : Nat
  sessions : List String
  submittedIds : List String
deriving DecidableEq, Repr

/-- The per-job loop body (human_flow.py lines 44-80): an unreadable card is
skipped uncounted; otherwise the job is counted, non-Easy-Apply jobs are
skipped, the match is evaluated, and when the score meets the threshold
`_apply_to_job` runs and a success bumps `applied_count`. -/
def processJob (minScore : ℚ) (acc : RunResult) (j : JobEnv) : RunResult :=
  match j.details with
  | none => acc
  | some d =>
      let acc1 : RunResult :=
        { acc with reviewed := acc.reviewed + 1, processed := acc.processed + 1 }
      if ¬ d.easy_apply then acc1
      else if minScore ≤ evaluateJobMatch d.scorer then
        let acc2 : RunResult := { acc1 with sessions := acc1.sessions ++ [j.job_id] }
        if (runApply d.applyEnv).outcome = .submitted then
          { acc2 with applied := acc2.applied + 1,
                      submittedIds := acc2.submittedIds ++ [j.job_id] }
        else acc2
      else acc1

/-- The inner `for` over a page's job cards (human_flow.py lines 40-80),
with the `jobs_processed >= max_jobs` break at the top of each iteration. -/
def processPage (minScore : ℚ) (maxJobs : Nat) :
    RunResult → List JobEnv → RunResult
  | acc, [] => acc
  | acc, j :: rest =>
      if maxJobs ≤ acc.processed then acc
      else processPage minScore maxJobs (processJob minScore acc j) rest

/-- The outer `while jobs_processed < max_jobs` page loop (human_flow.py
lines 28-89): stop when the budget is spent, when a page has no job cards,
or when no next page exists (the end of the page list). -/
def applyToJobsAux (minScore : ℚ) (maxJobs : Nat) :
    RunResult → List (List JobEnv) → RunResult
  | acc, [] => acc
  | acc, pg :: rest =>
      if maxJobs ≤ acc.processed then acc
      else if pg.isEmpty then acc
      else applyToJobsAux minScore maxJobs (processPage minScore maxJobs acc pg) rest

/-- `HumanJobApplicant.apply_to_jobs`: run over the pages the browser
serves, starting from zeroed counters. The persistence store is not an
input: nothing in the flow consults it. -/
def applyToJobs (pages : List (List JobEnv)) (maxJobs : Nat) (minScore : ℚ) :
    RunResult :=
  applyToJobsAux minScore maxJobs ⟨0, 0, 0, [], []⟩ pages

/-! ## Persistence store and rate limiter -/

/-- `ApplicationRepository.exists` (repository.py lines 149-155), over the
applications table abstracted as the list of stored `job_id`s. -/
def storeExists (store : List String) (jobId : String) : Bool :=
  store.contains jobId

/-- The `RateLimiter` state relevant to the daily counter (rate_limiter.py
lines 16-28). The wall-clock fields are abstracted by passing `resetDue`
(`current_time - last_reset >= 86400`) to `acquireApply`. -/
structure RLState where
  applications_today : Nat
  daily_limit : Nat
deriving DecidableEq, Repr

/-- `RateLimiter.acquire_apply` (rate_limiter.py lines 40-57): reset the
counter when a day has passed, raise `RateLimitExceeded` at the limit, and
otherwise grant permission, incrementing `applications_today` at
acquisition time - before any submission is attempted. The cooldown sleeps
do not affect the counter. -/
def acquireApply (s : RLState) (resetDue : Bool) : Except Unit RLState :=
  let s1 : RLState := if resetDue then { s with applications_today := 0 } else s
  if s1.daily_limit ≤ s1.applications_today then .error ()
  else .ok { s1 with applications_today := s1.applications_today + 1 }

/-! ## Claims C6 and C9 -/

/-- Details of a readable Easy-Apply job scoring 90 whose wizard submits at
step 0. -/
def okDetails : JobDetails :=
  { easy_apply := true,
    scorer := .dict [("match_score", .int 90)],
    applyEnv :=
      { btnFound := true, modalOpened := true, aff := fun _ => ⟨true, false, false⟩ } }

/-- A job card with id `"123"` and `okDetails`. -/
def job123 : JobEnv := { job_id := "123", details := some okDetails }

theorem okDetails_score :
    (7 / 10 : ℚ) ≤ evaluateJobMatch (.dict [("match_score", .int 90)]) := by
  have h : evaluateJobMatch (.dict [("match_score", .int 90)])
      = ((90 : Int) : ℚ) / 100 := rfl
  rw [h]
  norm_num

/-- C6 counterexample: with `"123"` already recorded in the persistence
store, a run whose page lists that very job twice opens an application
session for it both times: the pipeline consults no already-applied check,
neither against the store nor within the run. -/
theorem pipeline_double_apply :
    storeExists ["123"] "123" = true ∧
    (applyToJobs [[job123, job123]] 50 (7 / 10)).sessions = ["123", "123"] := by
  refine ⟨by decide, ?_⟩
  simp [applyToJobs, applyToJobsAux, processPage, processJob, job123, okDetails,
    runApply, applySteps, okDetails_score]

/-- C6 (amended): the pipeline never consults the persistence store's
already-applied check: even when a job's id is recorded in the store, a
reached, readable, Easy-Apply job whose score meets the threshold gets a
new application session opened. -/
theorem pipeline_opens_session_without_store_check (store : List String)
    (j : JobEnv) (d : JobDetails) (maxJobs : Nat) (minScore : ℚ)
    (h0 : storeExists store j.job_id = true)
    (h1 : 1 ≤ maxJobs) (h2 : j.details = some d) (h3 : d.easy_apply = true)
    (h4 : minScore ≤ evaluateJobMatch d.scorer) :
    j.job_id ∈ (applyToJobs [[j]] maxJobs minScore).sessions := by
  have hm : ¬ (maxJobs ≤ 0) := by omega
  simp only [applyToJobs, applyToJobsAux, processPage, processJob, hm, h2, h3, h4,
    List.isEmpty_cons, if_false, if_true, Bool.not_true, ite_false, ite_true]
  simp [hm, h2, h3, h4]
  split <;> simp

/-- C6 witness: the store holding `"123"` and the page holding `job123`. -/
theorem pipeline_opens_session_without_store_check_witness :
    "123" ∈ (applyToJobs [[job123]] 50 (7 / 10)).sessions :=
  pipeline_opens_session_without_store_check ["123"] job123 okDetails 50 (7 / 10)
    (by decide) (by omega) rfl rfl okDetails_score


/-- A job card with id `"789"`, Easy Apply, score 90, whose wizard only ever
shows a continue affordance, so the application is never submitted. -/
def jobNoSubmit : JobEnv :=
  { job_id := "789",
    details := some
      { easy_apply := true,
        scorer := .dict [("match_score", .int 90)],
        applyEnv :=
          { btnFound := true, modalOpened := true,
            aff := fun _ => ⟨false, true, false⟩ } } }

/-- C9 counterexample: `acquire_apply` increments the daily counter the
moment permission is granted - its semantics involve no submission at all -
and a run whose only session never submits confirms zero submissions while
a session was opened; so the counter is not incremented at the confirmed
`Submitted` transition, and an acquire-per-attempt discipline counts failed
attempts. -/
theorem dailyCounter_incremented_speculatively :
    acquireApply ⟨0, 50⟩ false = .ok ⟨1, 50⟩ ∧
    (applyToJobs [[jobNoSubmit]] 50 (7 / 10)).sessions = ["789"] ∧
    (applyToJobs [[jobNoSubmit]] 50 (7 / 10)).applied = 0 := by
  have hsc : (7 / 10 : ℚ) ≤ evaluateJobMatch
      (.dict [("match_score", .int 90)]) := okDetails_score
  refine ⟨rfl, ?_, ?_⟩ <;>
    simp [applyToJobs, applyToJobsAux, processPage, processJob, jobNoSubmit,
      runApply, applySteps, hsc]

theorem processJob_applied_inv (m : ℚ) (acc : RunResult) (j : JobEnv)
    (h : acc.applied = acc.submittedIds.length) :
    (processJob m acc j).applied = (processJob m acc j).submittedIds.length := by
  unfold processJob
  cases hd : j.details with
  | none => exact h
  | some d =>
      dsimp only
      split_ifs <;> simp [h]

theorem processPage_applied_inv (m : ℚ) (mx : Nat) :
    ∀ (pg : List JobEnv) (acc : RunResult),
      acc.applied = acc.submittedIds.length →
      (processPage m mx acc pg).applied
        = (processPage m mx acc pg).submittedIds.length := by
  intro pg
  induction pg with
  | nil => intro acc h; exact h
  | cons j rest ih =>
      intro acc h
      unfold processPage
      split_ifs
      · exact h
      · exact ih _ (processJob_applied_inv m acc j h)

theorem applyToJobsAux_applied_inv (m : ℚ) (mx : Nat) :
    ∀ (pages : List (List JobEnv)) (acc : RunResult),
      acc.applied = acc.submittedIds.length →
      (applyToJobsAux m mx acc pages).applied
        = (applyToJobsAux m mx acc pages).submittedIds.length := by
  intro pages
  induction pages with
  | nil => intro acc h; exact h
  | cons pg rest ih =>
      intro acc h
      unfold applyToJobsAux
      split_ifs
      · exact h
      · exact h
      · exact ih _ (processPage_applied_inv m mx pg acc h)

/-- C9 (amended): the flow's own `applied_count` is incremented exactly once
per confirmed submission - after any run it equals the number of submitted
ids - while the `RateLimiter` daily counter, never touched by the flow, is
incremented by `acquire_apply` itself whenever it grants permission, i.e.
at acquisition time, before any submission is confirmed. -/
theorem appliedCount_equals_submissions (pages : List (List JobEnv))
    (maxJobs : Nat) (minScore : ℚ) (s : RLState)
    (h : s.applications_today < s.daily_limit) :
    (applyToJobs pages maxJobs minScore).applied
      = (applyToJobs pages maxJobs minScore).submittedIds.length ∧
    acquireApply s false = .ok ⟨s.applications_today + 1, s.daily_limit⟩ := by
  constructor
  · exact applyToJobsAux_applied_inv minScore maxJobs pages ⟨0, 0, 0, [], []⟩ rfl
  · unfold acquireApply
    dsimp only
    split_ifs <;> simp_all <;> omega

/-- C9 witness: the empty run and the fresh limiter state. -/
theorem appliedCount_equals_submissions_witness :
    (applyToJobs [] 50 (7 / 10)).applied
      = (applyToJobs [] 50 (7 / 10)).submittedIds.length ∧
    acquireApply ⟨0, 50⟩ false = .ok ⟨1, 50⟩ :=
  appliedCount_equals_submissions [] 50 (7 / 10) ⟨0, 50⟩ (by decide)

end JobAgent
